import Mathlib

/-!
Shallow embedding of the two Intersight slot-report scripts,
`src/blades.py` (plain per-slot report) and `src/chassis.py` (per-slot
report plus per-model slot-status summary).

Modelling choices, uniform across both scripts:
* API records are structures whose optional attributes are `Option`s;
  `none` stands for an attribute that is absent or `None` in Python
  (the scripts guard with `hasattr` plus truthiness, so the two cases
  collapse).  The chassis `oper_state` needs the finer distinction
  between "attribute missing" and "attribute present but None", so it
  is an `Option (Option String)`.
* A blade's raw `SlotId` is kept as the string Python would pass to
  `int(...)`; `parse_slot_id` mirrors `int` on strings (strip
  whitespace, optional sign, decimal digits) and returns `none` where
  Python raises `ValueError`.
* Python dicts are insertion-ordered association lists with
  last-write-wins updates that keep the key's original position,
  exactly like CPython dicts.
* The CSV writer is modelled as a list of output lines; the network,
  logging and file I/O are out of scope, so each chassis record
  carries the blade list its per-chassis query would return, and
  `main` maps the fetched fleet (`Option (List Chassis)`, `none` for a
  falsy/shape-mismatched response) to the list of written lines.
-/

/-- The whitespace characters stripped by Python's `str.strip()`
(ASCII subset; the scripts' inputs are ASCII model/serial strings). -/
def isPySpace (c : Char) : Bool :=
  c = ' ' || c = '\t' || c = '\n' || c = '\r' || c = Char.ofNat 11 || c = Char.ofNat 12

/-- Python `s.strip()`. -/
def pyStrip (s : String) : String :=
  ⟨((s.data.dropWhile isPySpace).reverse.dropWhile isPySpace).reverse⟩

/-- Value of a list of decimal digit characters. -/
def digitsVal (l : List Char) : Nat :=
  l.foldl (fun a c => a * 10 + (c.toNat - 48)) 0

/-- Python `int(s)` for a string `s`: strip whitespace, optional single
sign, then a non-empty run of decimal digits; `none` where Python
raises `ValueError`. -/
def parse_slot_id (s : String) : Option Int :=
  let t := ((s.data.dropWhile isPySpace).reverse.dropWhile isPySpace).reverse
  match t with
  | c :: rest =>
    if c = '-' then
      if rest ≠ [] ∧ rest.all Char.isDigit then some (-(digitsVal rest : Int)) else none
    else if c = '+' then
      if rest ≠ [] ∧ rest.all Char.isDigit then some (digitsVal rest : Int) else none
    else
      if (c :: rest).all Char.isDigit then some (digitsVal (c :: rest) : Int) else none
  | [] => none

/-- A compute-blade record as selected by the scripts
(`select='SlotId,Moid,Model,Serial'`).  `slot_id` is `none` when the
attribute is missing or `None` (both scripts skip that case). -/
structure Blade where
  slot_id : Option String
  moid : Option String
  model : Option String
  serial : Option String
deriving DecidableEq, Repr

/-- A chassis record as selected by the scripts
(`select='Moid,Name,Model,OperState,Serial'`), together with the blade
list its per-chassis blade query returns. -/
structure Chassis where
  name : Option String
  moid : Option String
  model : Option String
  serial : Option String
  oper_state : Option (Option String)
  blades : List Blade
deriving DecidableEq, Repr

/-- The per-slot payload both scripts store in
`populated_slots_details`. -/
structure BladeDetails where
  model : String
  serial : String
deriving DecidableEq, Repr

/-- Insertion-ordered dict from slot index to blade details. -/
abbrev SlotDict := List (Int × BladeDetails)

/-- CPython dict assignment `d[k] = v`: update in place if the key
exists, else append. -/
def dictInsert : SlotDict → Int → BladeDetails → SlotDict
  | [], k, v => [(k, v)]
  | (k', v') :: rest, k, v =>
    if k' = k then (k, v) :: rest else (k', v') :: dictInsert rest k v

/-- Dict lookup `d.get(k)`. -/
def dictGet : SlotDict → Int → Option BladeDetails
  | [], _ => none
  | (k', v') :: rest, k => if k' = k then some v' else dictGet rest k

/-- Dict membership `k in d`. -/
def dictMem (d : SlotDict) (k : Int) : Bool :=
  (dictGet d k).isSome

/-- `CHASSIS_SLOT_COUNTS`, identical in both scripts. -/
def CHASSIS_SLOT_COUNTS : List (String × Nat) :=
  [("UCSB-5108-AC2", 8), ("UCSB-5108-DC2", 8), ("UCSX-9508", 8)]

/-- `DEFAULT_SLOT_COUNT`, identical in both scripts. -/
def DEFAULT_SLOT_COUNT : Nat := 8

/-- `TWO_SLOT_MODELS` from `src/chassis.py`. -/
def TWO_SLOT_MODELS : List String := ["UCSX-410C-M7", "UCSB-B480-M5"]

/-- `CHASSIS_SLOT_COUNTS.get(model, DEFAULT_SLOT_COUNT)`. -/
def total_slots (model : String) : Nat :=
  match CHASSIS_SLOT_COUNTS.lookup model with
  | some n => n
  | none => DEFAULT_SLOT_COUNT

/-- `chassis.name if hasattr(...) and chassis.name else "UnknownChassis"`. -/
def chassis_name_str (c : Chassis) : String :=
  match c.name with
  | some s => if s = "" then "UnknownChassis" else s
  | none => "UnknownChassis"

/-- `chassis.model if hasattr(...) and chassis.model else "UNKNOWN_MODEL"`. -/
def chassis_model_str (c : Chassis) : String :=
  match c.model with
  | some s => if s = "" then "UNKNOWN_MODEL" else s
  | none => "UNKNOWN_MODEL"

/-- `chassis.serial if hasattr(...) and chassis.serial else "UnknownSerial"`. -/
def chassis_serial_str (c : Chassis) : String :=
  match c.serial with
  | some s => if s = "" then "UnknownSerial" else s
  | none => "UnknownSerial"

/-- The chassis operational-state normalisation, identical in both
scripts: `none` is a record with no `OperState` attribute,
`some none` an attribute present but `None`, `some (some s)` a string
value. -/
def reported_chassis_oper_state (st : Option (Option String)) : String :=
  match st with
  | none => "UnknownChassisState"
  | some none => "NotReported (ChassisState_is_None)"
  | some (some s) => if pyStrip s = "" then "operable" else pyStrip s

/-- One CSV data row. -/
structure Row where
  chassis : String
  chassisModel : String
  chassisSerial : String
  slot : Nat
  bladeModel : String
  bladeSerial : String
  operState : String
deriving DecidableEq, Repr

/-- Body of both scripts' per-slot loop: the row written for slot
`n` given the details map lookup. -/
def row_for_slot (name cmodel cserial state : String) (n : Nat)
    (d : Option BladeDetails) : Row :=
  match d with
  | some det => ⟨name, cmodel, cserial, n, det.model, det.serial, state⟩
  | none => ⟨name, cmodel, cserial, n, "", "", "Empty"⟩

/-- A line of the output file. -/
inductive OutLine where
  | header
  | data (r : Row)
  | blank
  | summaryTitle
  | summaryHeader
  | summaryCount (model status : String) (count : Nat)
deriving DecidableEq, Repr

/-- Insertion-ordered counter from status label to count. -/
abbrev Counter := List (String × Nat)

/-- `c.setdefault(k, 0); c[k] += n` on a counter dict. -/
def counterAdd : Counter → String → Nat → Counter
  | [], k, n => [(k, n)]
  | (k', v) :: rest, k, n =>
    if k' = k then (k', v + n) :: rest else (k', v) :: counterAdd rest k n

/-- Sum of all counts in a counter. -/
def counterSum (c : Counter) : Nat :=
  c.foldl (fun a p => a + p.snd) 0

/-- `model_summary_counts`: insertion-ordered dict from chassis model
to its status counter. -/
abbrev ModelSummary := List (String × Counter)

/-- `m.setdefault(model, {})`. -/
def msEnsure (m : ModelSummary) (model : String) : ModelSummary :=
  if m.any (fun p => p.fst = model) then m else m ++ [(model, [])]

/-- `m[model].setdefault(status, 0); m[model][status] += n`
(the scripts only call this after `setdefault(model, {})`). -/
def msAdd : ModelSummary → String → String → Nat → ModelSummary
  | [], _, _, _ => []
  | (k, c) :: rest, model, status, n =>
    if k = model then (k, counterAdd c status n) :: rest
    else (k, c) :: msAdd rest model status n

/-- `m.get(model, {})`. -/
def msFind : ModelSummary → String → Counter
  | [], _ => []
  | (k, c) :: rest, model => if k = model then c else msFind rest model

namespace ChassisScript

/-- The details stored per blade in `src/chassis.py` lines 102-105:
`getattr(blade, 'model', 'UnknownBladeModel')`, defaulting only when
the attribute is absent. -/
def blade_details (b : Blade) : BladeDetails :=
  ⟨b.model.getD "UnknownBladeModel", b.serial.getD "UnknownBladeSerial"⟩

/-- `src/chassis.py` lines 96-107: build the direct-assignment map,
skipping blades whose `SlotId` is missing or unparseable. -/
def populated_slots_details (bs : List Blade) : SlotDict :=
  bs.foldl
    (fun d b =>
      match b.slot_id with
      | none => d
      | some raw =>
        match parse_slot_id raw with
        | none => d
        | some sid => dictInsert d sid (blade_details b))
    []

/-- One step of the expansion loop body, `src/chassis.py`
lines 111-116. -/
def expandStep (ts : Nat) (e : SlotDict) (p : Int × BladeDetails) : SlotDict :=
  let e1 := dictInsert e p.fst p.snd
  if TWO_SLOT_MODELS.contains p.snd.model then
    if p.fst + 1 ≤ (ts : Int) then dictInsert e1 (p.fst + 1) p.snd else e1
  else e1

/-- `src/chassis.py` lines 110-116: expand the direct-assignment map so
two-slot blades also claim the next slot, when it is within range. -/
def expanded_slots_details (pop : SlotDict) (ts : Nat) : SlotDict :=
  pop.foldl (expandStep ts) []

/-- `src/chassis.py` lines 128-130: slots consumed by the populated
blades, 2 per two-slot model and 1 otherwise. -/
def slots_occupied_by_blades (pop : SlotDict) : Nat :=
  pop.foldl (fun a p => a + (if TWO_SLOT_MODELS.contains p.snd.model then 2 else 1)) 0

/-- `src/chassis.py` lines 118-137: the per-chassis summary update. -/
def update_summary (m : ModelSummary) (cmodel state : String)
    (pop : SlotDict) (ts : Nat) : ModelSummary :=
  let m1 := msEnsure m cmodel
  let m2 := pop.foldl (fun acc _ => msAdd acc cmodel state 1) m1
  let occupied := slots_occupied_by_blades pop
  if occupied < ts then msAdd m2 cmodel "Empty" (ts - occupied) else m2

/-- `src/chassis.py` lines 140-159: the rows written for one chassis,
slots 1 to `total_slots` over the expanded map. -/
def chassis_rows (c : Chassis) : List Row :=
  let ts := total_slots (chassis_model_str c)
  let exp := expanded_slots_details (populated_slots_details c.blades) ts
  (List.range ts).map fun i =>
    row_for_slot (chassis_name_str c) (chassis_model_str c)
      (chassis_serial_str c) (reported_chassis_oper_state c.oper_state)
      (i + 1) (dictGet exp ((i : Int) + 1))

/-- The `model_summary_counts` dict after the whole fleet loop. -/
def model_summary_counts (cs : List Chassis) : ModelSummary :=
  cs.foldl
    (fun m c =>
      update_summary m (chassis_model_str c)
        (reported_chassis_oper_state c.oper_state)
        (populated_slots_details c.blades)
        (total_slots (chassis_model_str c)))
    []

/-- `src/chassis.py` lines 167-184: the trailing summary block. -/
def summary_block (m : ModelSummary) : List OutLine :=
  [OutLine.blank, OutLine.blank, OutLine.summaryTitle, OutLine.summaryHeader] ++
    m.foldl
      (fun acc p => acc ++ p.snd.map fun q => OutLine.summaryCount p.fst q.fst q.snd)
      []

/-- `src/chassis.py` `main`, viewed as the list of lines written to
the CSV: header, then per-chassis slot rows, then the summary block;
a falsy or empty chassis response returns right after the header. -/
def main (fleet : Option (List Chassis)) : List OutLine :=
  match fleet with
  | none => [OutLine.header]
  | some [] => [OutLine.header]
  | some cs =>
    [OutLine.header] ++
      (cs.foldl (fun acc c => acc ++ (chassis_rows c).map OutLine.data) []) ++
      summary_block (model_summary_counts cs)

end ChassisScript

namespace BladesScript

/-- `src/blades.py` lines 112-114: blade model with falsy fallback. -/
def blade_model_str (b : Blade) : String :=
  match b.model with
  | some s => if s = "" then "UnknownBladeModel" else s
  | none => "UnknownBladeModel"

/-- `src/blades.py` lines 116-118: blade serial with falsy fallback. -/
def blade_serial_str (b : Blade) : String :=
  match b.serial with
  | some s => if s = "" then "UnknownBladeSerial" else s
  | none => "UnknownBladeSerial"

/-- The details stored per blade in `src/blades.py` lines 123-126. -/
def blade_details (b : Blade) : BladeDetails :=
  ⟨blade_model_str b, blade_serial_str b⟩

/-- `src/blades.py` lines 107-131: build the direct-assignment map,
skipping blades whose `SlotId` is missing or unparseable. -/
def populated_slots_details (bs : List Blade) : SlotDict :=
  bs.foldl
    (fun d b =>
      match b.slot_id with
      | none => d
      | some raw =>
        match parse_slot_id raw with
        | none => d
        | some sid => dictInsert d sid (blade_details b))
    []

/-- `src/blades.py` lines 135-153: the rows written for one chassis,
slots 1 to `total_slots` over the unexpanded map. -/
def chassis_rows (c : Chassis) : List Row :=
  let ts := total_slots (chassis_model_str c)
  let pop := populated_slots_details c.blades
  (List.range ts).map fun i =>
    row_for_slot (chassis_name_str c) (chassis_model_str c)
      (chassis_serial_str c) (reported_chassis_oper_state c.oper_state)
      (i + 1) (dictGet pop ((i : Int) + 1))

/-- `src/blades.py` `main`, viewed as the list of lines written to the
CSV: header then per-chassis slot rows; a falsy or empty chassis
response returns right after the header. -/
def main (fleet : Option (List Chassis)) : List OutLine :=
  match fleet with
  | none => [OutLine.header]
  | some [] => [OutLine.header]
  | some cs =>
    [OutLine.header] ++
      cs.foldl (fun acc c => acc ++ (chassis_rows c).map OutLine.data) []

end BladesScript

/-- Sum over chassis of the given model of their resolved slot counts:
the right-hand side of the spec's summary invariant. -/
def fleetTotalSlots : List Chassis → String → Nat
  | [], _ => 0
  | c :: rest, model =>
    (if chassis_model_str c = model then total_slots (chassis_model_str c) else 0) +
      fleetTotalSlots rest model

/-- Number of direct-assignment entries whose blade model is a
two-slot model. -/
def twoSlotEntries (pop : SlotDict) : Nat :=
  (pop.filter fun p => TWO_SLOT_MODELS.contains p.snd.model).length

/-- Total number of two-slot direct-assignment entries over the
chassis of the given model. -/
def fleetTwoSlotEntries : List Chassis → String → Nat
  | [], _ => 0
  | c :: rest, model =>
    (if chassis_model_str c = model then
        twoSlotEntries (ChassisScript.populated_slots_details c.blades) else 0) +
      fleetTwoSlotEntries rest model

/-- The C3 scenario chassis: model "UCSB-5108-AC2", one two-slot blade
in slot 3 with serial "SN1", chassis state "operable". -/
def scenarioChassis : Chassis :=
  { name := some "ch1", moid := some "m1", model := some "UCSB-5108-AC2",
    serial := some "CS1", oper_state := some (some "operable"),
    blades := [{ slot_id := some "3", moid := some "b1",
                 model := some "UCSX-410C-M7", serial := some "SN1" }] }

/-- A blade whose slot index does not parse, for the C8 witness. -/
def malformedBlade : Blade :=
  { slot_id := some "not-a-number", moid := some "bX",
    model := some "UCSB-B200-M5", serial := some "SNX" }

/-- A chassis carrying one good and one malformed blade, for the C8
witness. -/
def witnessChassisC8 : Chassis :=
  { name := some "ch8", moid := some "m8", model := some "UCSX-9508",
    serial := some "CS8", oper_state := some (some "operable"),
    blades := [{ slot_id := some "2", moid := some "b2",
                 model := some "UCSB-B200-M5", serial := some "SN2" },
               malformedBlade] }

/-- Two blades reporting the same slot index 5, for the C7 witness. -/
def duplicateBlades : List Blade :=
  [{ slot_id := some "5", moid := some "bA", model := some "M1", serial := some "S1" },
   { slot_id := some "5", moid := some "bB", model := some "M2", serial := some "S2" }]

/-! ### Basic dictionary lemmas -/

theorem dictGet_dictInsert (d : SlotDict) (k j : Int) (v : BladeDetails) :
    dictGet (dictInsert d k v) j = if k = j then some v else dictGet d j := by
  induction d with
  | nil => simp [dictInsert, dictGet]
  | cons p rest ih =>
    obtain ⟨k', v'⟩ := p
    by_cases hk : k' = k
    · subst hk
      by_cases hj : k' = j <;> simp [dictInsert, dictGet, hj]
    · by_cases hj : k' = j
      · subst hj
        have : ¬ k = k' := fun h => hk h.symm
        simp [dictInsert, dictGet, hk, this]
      · simp [dictInsert, dictGet, hk, hj, ih]

theorem dictMem_dictInsert (d : SlotDict) (k j : Int) (v : BladeDetails) :
    dictMem (dictInsert d k v) j = (decide (k = j) || dictMem d j) := by
  by_cases h : k = j <;> simp [dictMem, dictGet_dictInsert, h]

theorem dictMem_eq_any (d : SlotDict) (k : Int) :
    dictMem d k = d.any fun p => p.fst = k := by
  induction d with
  | nil => rfl
  | cons p rest ih =>
    have ih' : (dictGet rest k).isSome = rest.any fun p => p.fst = k := ih
    by_cases h : p.fst = k <;> simp [dictMem, dictGet, h, ih']

theorem row_for_slot_slot (a b c st : String) (n : Nat) (d : Option BladeDetails) :
    (row_for_slot a b c st n d).slot = n := by
  cases d <;> rfl

/-! ### C2, C3, C5, C10 -/

theorem chassis_rows_map_slot (c : Chassis) :
    (ChassisScript.chassis_rows c).map Row.slot =
      (List.range (total_slots (chassis_model_str c))).map (fun i => i + 1) ∧
    (BladesScript.chassis_rows c).map Row.slot =
      (List.range (total_slots (chassis_model_str c))).map (fun i => i + 1) := by
  constructor <;>
    simp [ChassisScript.chassis_rows, BladesScript.chassis_rows, List.map_map,
      Function.comp, row_for_slot_slot]

/-- C2: in both variants each chassis yields exactly `total_slots` slot
rows (the capacity-table lookup on its model, default 8), with slot
numbers 1 to `total_slots` in ascending order, whatever its blade list
contains. -/
theorem claimC2_exact_slot_rows (c : Chassis) :
    (ChassisScript.chassis_rows c).length = total_slots (chassis_model_str c) ∧
    (ChassisScript.chassis_rows c).map Row.slot =
      (List.range (total_slots (chassis_model_str c))).map (fun i => i + 1) ∧
    (BladesScript.chassis_rows c).length = total_slots (chassis_model_str c) ∧
    (BladesScript.chassis_rows c).map Row.slot =
      (List.range (total_slots (chassis_model_str c))).map (fun i => i + 1) := by
  refine ⟨?_, (chassis_rows_map_slot c).1, ?_, (chassis_rows_map_slot c).2⟩ <;>
    simp [ChassisScript.chassis_rows, BladesScript.chassis_rows]

/-- C3: for the scenario chassis the summary variant fills slots 3 and
4 with the blade's model, serial and state "operable" and leaves
1,2,5,6,7,8 Empty, while the non-summary variant fills only slot 3. -/
theorem claimC3_two_slot_scenario :
    ChassisScript.chassis_rows scenarioChassis =
      [⟨"ch1", "UCSB-5108-AC2", "CS1", 1, "", "", "Empty"⟩,
       ⟨"ch1", "UCSB-5108-AC2", "CS1", 2, "", "", "Empty"⟩,
       ⟨"ch1", "UCSB-5108-AC2", "CS1", 3, "UCSX-410C-M7", "SN1", "operable"⟩,
       ⟨"ch1", "UCSB-5108-AC2", "CS1", 4, "UCSX-410C-M7", "SN1", "operable"⟩,
       ⟨"ch1", "UCSB-5108-AC2", "CS1", 5, "", "", "Empty"⟩,
       ⟨"ch1", "UCSB-5108-AC2", "CS1", 6, "", "", "Empty"⟩,
       ⟨"ch1", "UCSB-5108-AC2", "CS1", 7, "", "", "Empty"⟩,
       ⟨"ch1", "UCSB-5108-AC2", "CS1", 8, "", "", "Empty"⟩] ∧
    BladesScript.chassis_rows scenarioChassis =
      [⟨"ch1", "UCSB-5108-AC2", "CS1", 1, "", "", "Empty"⟩,
       ⟨"ch1", "UCSB-5108-AC2", "CS1", 2, "", "", "Empty"⟩,
       ⟨"ch1", "UCSB-5108-AC2", "CS1", 3, "UCSX-410C-M7", "SN1", "operable"⟩,
       ⟨"ch1", "UCSB-5108-AC2", "CS1", 4, "", "", "Empty"⟩,
       ⟨"ch1", "UCSB-5108-AC2", "CS1", 5, "", "", "Empty"⟩,
       ⟨"ch1", "UCSB-5108-AC2", "CS1", 6, "", "", "Empty"⟩,
       ⟨"ch1", "UCSB-5108-AC2", "CS1", 7, "", "", "Empty"⟩,
       ⟨"ch1", "UCSB-5108-AC2", "CS1", 8, "", "", "Empty"⟩] := by
  constructor <;> decide

/-- C5: the state normalisation returns the stripped raw state when
the stripped value is non-empty, "operable" when the string strips to
empty, the `NotReported` literal for a present-but-None value, and
"UnknownChassisState" when the attribute is missing. -/
theorem claimC5_state_normalisation :
    (∀ s : String, pyStrip s ≠ "" →
      reported_chassis_oper_state (some (some s)) = pyStrip s) ∧
    (∀ s : String, pyStrip s = "" →
      reported_chassis_oper_state (some (some s)) = "operable") ∧
    reported_chassis_oper_state (some none) = "NotReported (ChassisState_is_None)" ∧
    reported_chassis_oper_state none = "UnknownChassisState" ∧
    reported_chassis_oper_state (some (some "  Operable  ")) = "Operable" := by
  refine ⟨?_, ?_, rfl, rfl, by decide⟩
  · intro s hs
    show (if pyStrip s = "" then "operable" else pyStrip s) = pyStrip s
    rw [if_neg hs]
  · intro s hs
    show (if pyStrip s = "" then "operable" else pyStrip s) = "operable"
    rw [if_pos hs]

theorem claimC5_state_normalisation_witness :
    (pyStrip "  Operable  " ≠ "" ∧
      reported_chassis_oper_state (some (some "  Operable  ")) = pyStrip "  Operable  ") ∧
    (pyStrip " " = "" ∧
      reported_chassis_oper_state (some (some " ")) = "operable") :=
  ⟨⟨by decide, claimC5_state_normalisation.1 "  Operable  " (by decide)⟩,
   ⟨by decide, claimC5_state_normalisation.2.1 " " (by decide)⟩⟩

/-- C10: with a falsy or empty chassis response both scripts write
only the header line; in particular the summary variant writes no
summary block. -/
theorem claimC10_empty_fleet_header_only :
    ChassisScript.main none = [OutLine.header] ∧
    ChassisScript.main (some []) = [OutLine.header] ∧
    BladesScript.main none = [OutLine.header] ∧
    BladesScript.main (some []) = [OutLine.header] :=
  ⟨rfl, rfl, rfl, rfl⟩

/-! ### C6: expansion never claims a slot beyond `total_slots` -/

theorem expandStep_mem_big (ts : Nat) (k : Int) (hk : (ts : Int) < k)
    (e : SlotDict) (p : Int × BladeDetails) :
    dictMem (ChassisScript.expandStep ts e p) k = (decide (p.fst = k) || dictMem e k) := by
  unfold ChassisScript.expandStep
  by_cases h2 : p.snd.model ∈ TWO_SLOT_MODELS
  · by_cases h3 : p.fst + 1 ≤ (ts : Int)
    · have hne : ¬ p.fst + 1 = k := by omega
      simp [h2, h3, dictMem_dictInsert, hne]
    · simp [h2, h3, dictMem_dictInsert]
  · simp [h2, dictMem_dictInsert]

theorem expandFold_mem_big (ts : Nat) (k : Int) (hk : (ts : Int) < k)
    (l : SlotDict) :
    ∀ e : SlotDict,
      dictMem (l.foldl (ChassisScript.expandStep ts) e) k =
        (dictMem e k || l.any fun p => p.fst = k) := by
  induction l with
  | nil => intro e; simp
  | cons p rest ih =>
    intro e
    rw [List.foldl_cons, ih, expandStep_mem_big ts k hk]
    cases h : dictMem e k <;> simp [List.any_cons]

/-- C6: in the summary variant, any slot index beyond `total_slots` is
claimed in the expanded map exactly when it was directly claimed; the
two-slot expansion itself never claims an index past the last slot. -/
theorem claimC6_no_phantom_slot (pop : SlotDict) (ts : Nat) (k : Int)
    (hk : (ts : Int) < k) :
    dictMem (ChassisScript.expanded_slots_details pop ts) k = dictMem pop k := by
  unfold ChassisScript.expanded_slots_details
  rw [expandFold_mem_big ts k hk pop []]
  have h0 : dictMem ([] : SlotDict) k = false := rfl
  rw [h0, Bool.false_or, dictMem_eq_any]

theorem claimC6_no_phantom_slot_witness :
    ((8 : Nat) : Int) < 10 ∧
    dictMem
      (ChassisScript.expanded_slots_details [((10 : Int), ⟨"UCSX-410C-M7", "S"⟩)] 8) 10 =
      dictMem [((10 : Int), ⟨"UCSX-410C-M7", "S"⟩)] 10 :=
  ⟨by decide, claimC6_no_phantom_slot [((10 : Int), ⟨"UCSX-410C-M7", "S"⟩)] 8 10 (by decide)⟩

/-! ### C4: row contents for claimed and unclaimed slots -/

theorem chassis_rows_get (c : Chassis) (n : Nat) (h1 : 1 ≤ n)
    (h2 : n ≤ total_slots (chassis_model_str c)) :
    (ChassisScript.chassis_rows c)[n - 1]? =
      some (row_for_slot (chassis_name_str c) (chassis_model_str c) (chassis_serial_str c)
        (reported_chassis_oper_state c.oper_state) n
        (dictGet (ChassisScript.expanded_slots_details
          (ChassisScript.populated_slots_details c.blades)
          (total_slots (chassis_model_str c))) (n : Int))) := by
  have hlt : n - 1 < total_slots (chassis_model_str c) := by omega
  have hn : n - 1 + 1 = n := by omega
  have hz : ((n - 1 : Nat) : Int) + 1 = (n : Int) := by omega
  simp [ChassisScript.chassis_rows, List.getElem?_map, List.getElem?_range, hlt, hn, hz]

theorem blades_rows_get (c : Chassis) (n : Nat) (h1 : 1 ≤ n)
    (h2 : n ≤ total_slots (chassis_model_str c)) :
    (BladesScript.chassis_rows c)[n - 1]? =
      some (row_for_slot (chassis_name_str c) (chassis_model_str c) (chassis_serial_str c)
        (reported_chassis_oper_state c.oper_state) n
        (dictGet (BladesScript.populated_slots_details c.blades) (n : Int))) := by
  have hlt : n - 1 < total_slots (chassis_model_str c) := by omega
  have hn : n - 1 + 1 = n := by omega
  have hz : ((n - 1 : Nat) : Int) + 1 = (n : Int) := by omega
  simp [BladesScript.chassis_rows, List.getElem?_map, List.getElem?_range, hlt, hn, hz]

/-- C4: for each slot 1..`total_slots`, a slot claimed in the relevant
map yields a row carrying the claiming blade's model and serial and
the chassis's normalised state, and an unclaimed slot yields a row
with empty model and serial and state exactly "Empty" — in the summary
variant over the expanded map, in the other variant over the direct
map. -/
theorem claimC4_row_contents (c : Chassis) (n : Nat) (h1 : 1 ≤ n)
    (h2 : n ≤ total_slots (chassis_model_str c)) :
    (∀ det, dictGet (ChassisScript.expanded_slots_details
        (ChassisScript.populated_slots_details c.blades)
        (total_slots (chassis_model_str c))) (n : Int) = some det →
      (ChassisScript.chassis_rows c)[n - 1]? =
        some ⟨chassis_name_str c, chassis_model_str c, chassis_serial_str c, n,
          det.model, det.serial, reported_chassis_oper_state c.oper_state⟩) ∧
    (dictGet (ChassisScript.expanded_slots_details
        (ChassisScript.populated_slots_details c.blades)
        (total_slots (chassis_model_str c))) (n : Int) = none →
      (ChassisScript.chassis_rows c)[n - 1]? =
        some ⟨chassis_name_str c, chassis_model_str c, chassis_serial_str c, n,
          "", "", "Empty"⟩) ∧
    (∀ det, dictGet (BladesScript.populated_slots_details c.blades) (n : Int) = some det →
      (BladesScript.chassis_rows c)[n - 1]? =
        some ⟨chassis_name_str c, chassis_model_str c, chassis_serial_str c, n,
          det.model, det.serial, reported_chassis_oper_state c.oper_state⟩) ∧
    (dictGet (BladesScript.populated_slots_details c.blades) (n : Int) = none →
      (BladesScript.chassis_rows c)[n - 1]? =
        some ⟨chassis_name_str c, chassis_model_str c, chassis_serial_str c, n,
          "", "", "Empty"⟩) := by
  refine ⟨?_, ?_, ?_, ?_⟩
  · intro det hdet
    rw [chassis_rows_get c n h1 h2, hdet]
    rfl
  · intro hdet
    rw [chassis_rows_get c n h1 h2, hdet]
    rfl
  · intro det hdet
    rw [blades_rows_get c n h1 h2, hdet]
    rfl
  · intro hdet
    rw [blades_rows_get c n h1 h2, hdet]
    rfl

theorem claimC4_row_contents_witness :
    1 ≤ 4 ∧ 4 ≤ total_slots (chassis_model_str scenarioChassis) ∧
    dictGet (ChassisScript.expanded_slots_details
      (ChassisScript.populated_slots_details scenarioChassis.blades)
      (total_slots (chassis_model_str scenarioChassis))) 4 =
        some ⟨"UCSX-410C-M7", "SN1"⟩ ∧
    (ChassisScript.chassis_rows scenarioChassis)[3]? =
      some ⟨"ch1", "UCSB-5108-AC2", "CS1", 4, "UCSX-410C-M7", "SN1", "operable"⟩ :=
  ⟨by decide, by decide, by decide,
    (claimC4_row_contents scenarioChassis 4 (by decide) (by decide)).1
      ⟨"UCSX-410C-M7", "SN1"⟩ (by decide)⟩

/-! ### C7: duplicate slot indices, last write wins -/

theorem popFold_get (f : Blade → BladeDetails) (bs : List Blade) :
    ∀ (d : SlotDict) (s : Int),
      dictGet (bs.foldl (fun d b =>
        match b.slot_id with
        | none => d
        | some raw =>
          match parse_slot_id raw with
          | none => d
          | some sid => dictInsert d sid (f b)) d) s =
      (match bs.reverse.find? (fun b => b.slot_id.bind parse_slot_id == some s) with
       | some b => some (f b)
       | none => dictGet d s) := by
  induction bs with
  | nil => intro d s; simp
  | cons b rest ih =>
    intro d s
    rw [List.foldl_cons, ih, List.reverse_cons, List.find?_append]
    cases hfind : rest.reverse.find? (fun b => b.slot_id.bind parse_slot_id == some s) with
    | some b' => simp
    | none =>
      simp only [Option.none_orElse]
      cases hb : b.slot_id with
      | none => simp [List.find?, hb]
      | some raw =>
        cases hp : parse_slot_id raw with
        | none => simp [List.find?, hb, hp]
        | some sid =>
          by_cases hs : sid = s
          · subst hs
            simp [List.find?, hb, hp, dictGet_dictInsert]
          · have hbeq : (sid == s) = false := by
              simp [hs]
            simp [List.find?, hb, hp, dictGet_dictInsert, hs, hbeq]

theorem countP_range_shift (n : Nat) : ∀ ts : Nat,
    (List.range ts).countP (fun i => i + 1 = n) =
      if 1 ≤ n ∧ n ≤ ts then 1 else 0 := by
  intro ts
  induction ts with
  | zero =>
    simp only [List.range_zero, List.countP_nil]
    split_ifs <;> omega
  | succ t ih =>
    rw [List.range_succ, List.countP_append, ih]
    have hsingle : List.countP (fun i => decide (i + 1 = n)) [t] =
        if t + 1 = n then 1 else 0 := by
      simp [List.countP_cons]
    rw [hsingle]
    split_ifs <;> omega

/-- C7: a later blade reporting the same valid slot index overwrites an
earlier one — the direct-assignment lookup at a slot returns the
details of the last blade in input order whose slot index parses to
it, in both variants — and each slot index in range gets exactly one
emitted row. -/
theorem claimC7_last_write_wins (bs : List Blade) (s : Int) (c : Chassis) (n : Nat)
    (h1 : 1 ≤ n) (h2 : n ≤ total_slots (chassis_model_str c)) :
    (dictGet (ChassisScript.populated_slots_details bs) s =
      (bs.reverse.find? (fun b => b.slot_id.bind parse_slot_id == some s)).map
        ChassisScript.blade_details) ∧
    (dictGet (BladesScript.populated_slots_details bs) s =
      (bs.reverse.find? (fun b => b.slot_id.bind parse_slot_id == some s)).map
        BladesScript.blade_details) ∧
    ((ChassisScript.chassis_rows c).filter fun r => r.slot = n).length = 1 ∧
    ((BladesScript.chassis_rows c).filter fun r => r.slot = n).length = 1 := by
  have hcount : ∀ rows : List Row, rows.map Row.slot =
      (List.range (total_slots (chassis_model_str c))).map (fun i => i + 1) →
      (rows.filter fun r => r.slot = n).length = 1 := by
    intro rows hrows
    have hc : (rows.filter fun r => r.slot = n).length =
        rows.countP fun r => r.slot = n := by
      rw [List.countP_eq_length_filter]
    rw [hc]
    have hmap : rows.countP (fun r => r.slot = n) =
        (rows.map Row.slot).countP (fun m => m = n) := by
      rw [List.countP_map]
      rfl
    rw [hmap, hrows, List.countP_map]
    have : ((fun m => decide (m = n)) ∘ fun i => i + 1) = fun i => decide (i + 1 = n) := by
      funext i; rfl
    rw [this, countP_range_shift]
    simp [h1, h2]
  refine ⟨?_, ?_, ?_, ?_⟩
  · unfold ChassisScript.populated_slots_details
    rw [popFold_get ChassisScript.blade_details bs [] s]
    cases hfind : bs.reverse.find? (fun b => b.slot_id.bind parse_slot_id == some s) <;>
      rfl
  · unfold BladesScript.populated_slots_details
    rw [popFold_get BladesScript.blade_details bs [] s]
    cases hfind : bs.reverse.find? (fun b => b.slot_id.bind parse_slot_id == some s) <;>
      rfl
  · exact hcount _ (chassis_rows_map_slot c).1
  · exact hcount _ (chassis_rows_map_slot c).2

theorem claimC7_last_write_wins_witness :
    (1 : Nat) ≤ 5 ∧ 5 ≤ total_slots (chassis_model_str scenarioChassis) ∧
    dictGet (ChassisScript.populated_slots_details duplicateBlades) 5 =
      ((duplicateBlades.reverse.find?
        (fun b => b.slot_id.bind parse_slot_id == some 5)).map
          ChassisScript.blade_details) ∧
    dictGet (ChassisScript.populated_slots_details duplicateBlades) 5 =
      some ⟨"M2", "S2"⟩ ∧
    ((ChassisScript.chassis_rows scenarioChassis).filter fun r => r.slot = 5).length = 1 :=
  ⟨by decide, by decide,
    (claimC7_last_write_wins duplicateBlades 5 scenarioChassis 5 (by decide) (by decide)).1,
    by decide,
    (claimC7_last_write_wins duplicateBlades 5 scenarioChassis 5 (by decide) (by decide)).2.2.1⟩

/-! ### C8: blades with a missing or unparseable slot index are inert -/

theorem popFold_skip (f : Blade → BladeDetails) (b : Blade)
    (h : b.slot_id.bind parse_slot_id = none) (l1 l2 : List Blade) (d : SlotDict) :
    (l1 ++ b :: l2).foldl (fun d b =>
        match b.slot_id with
        | none => d
        | some raw =>
          match parse_slot_id raw with
          | none => d
          | some sid => dictInsert d sid (f b)) d =
      (l1 ++ l2).foldl (fun d b =>
        match b.slot_id with
        | none => d
        | some raw =>
          match parse_slot_id raw with
          | none => d
          | some sid => dictInsert d sid (f b)) d := by
  rw [List.foldl_append, List.foldl_append, List.foldl_cons]
  congr 1
  cases hb : b.slot_id with
  | none => simp [hb]
  | some raw =>
    have hp : parse_slot_id raw = none := by
      rw [hb] at h
      simpa using h
    simp [hb, hp]

/-- C8: a blade whose slot index is missing or does not parse as an
integer leaves the direct-assignment map, the emitted rows and the
summary counters exactly as if the blade were not reported at all, in
both variants; the embedding is total, so such data never aborts the
chassis. -/
theorem claimC8_malformed_blade_inert (c : Chassis) (l1 l2 : List Blade) (b : Blade)
    (hb : c.blades = l1 ++ b :: l2)
    (h : b.slot_id.bind parse_slot_id = none) :
    ChassisScript.populated_slots_details c.blades =
      ChassisScript.populated_slots_details (l1 ++ l2) ∧
    BladesScript.populated_slots_details c.blades =
      BladesScript.populated_slots_details (l1 ++ l2) ∧
    ChassisScript.chassis_rows c = ChassisScript.chassis_rows { c with blades := l1 ++ l2 } ∧
    BladesScript.chassis_rows c = BladesScript.chassis_rows { c with blades := l1 ++ l2 } ∧
    ChassisScript.model_summary_counts [c] =
      ChassisScript.model_summary_counts [{ c with blades := l1 ++ l2 }] := by
  have hpopC : ChassisScript.populated_slots_details c.blades =
      ChassisScript.populated_slots_details (l1 ++ l2) := by
    rw [hb]
    exact popFold_skip ChassisScript.blade_details b h l1 l2 []
  have hpopB : BladesScript.populated_slots_details c.blades =
      BladesScript.populated_slots_details (l1 ++ l2) := by
    rw [hb]
    exact popFold_skip BladesScript.blade_details b h l1 l2 []
  refine ⟨hpopC, hpopB, ?_, ?_, ?_⟩
  · show ChassisScript.chassis_rows c = ChassisScript.chassis_rows { c with blades := l1 ++ l2 }
    unfold ChassisScript.chassis_rows
    rw [show ({ c with blades := l1 ++ l2 } : Chassis).blades = l1 ++ l2 from rfl]
    rw [show chassis_model_str { c with blades := l1 ++ l2 } = chassis_model_str c from rfl,
      show chassis_name_str { c with blades := l1 ++ l2 } = chassis_name_str c from rfl,
      show chassis_serial_str { c with blades := l1 ++ l2 } = chassis_serial_str c from rfl,
      show ({ c with blades := l1 ++ l2 } : Chassis).oper_state = c.oper_state from rfl,
      hpopC]
  · show BladesScript.chassis_rows c = BladesScript.chassis_rows { c with blades := l1 ++ l2 }
    unfold BladesScript.chassis_rows
    rw [show ({ c with blades := l1 ++ l2 } : Chassis).blades = l1 ++ l2 from rfl]
    rw [show chassis_model_str { c with blades := l1 ++ l2 } = chassis_model_str c from rfl,
      show chassis_name_str { c with blades := l1 ++ l2 } = chassis_name_str c from rfl,
      show chassis_serial_str { c with blades := l1 ++ l2 } = chassis_serial_str c from rfl,
      show ({ c with blades := l1 ++ l2 } : Chassis).oper_state = c.oper_state from rfl,
      hpopB]
  · show ChassisScript.model_summary_counts [c] =
      ChassisScript.model_summary_counts [{ c with blades := l1 ++ l2 }]
    unfold ChassisScript.model_summary_counts
    rw [List.foldl_cons, List.foldl_cons, List.foldl_nil, List.foldl_nil]
    rw [show ({ c with blades := l1 ++ l2 } : Chassis).blades = l1 ++ l2 from rfl,
      show chassis_model_str { c with blades := l1 ++ l2 } = chassis_model_str c from rfl,
      show ({ c with blades := l1 ++ l2 } : Chassis).oper_state = c.oper_state from rfl,
      hpopC]

theorem claimC8_malformed_blade_inert_witness :
    witnessChassisC8.blades =
      [{ slot_id := some "2", moid := some "b2",
         model := some "UCSB-B200-M5", serial := some "SN2" }] ++
        malformedBlade :: [] ∧
    malformedBlade.slot_id.bind parse_slot_id = none ∧
    ChassisScript.chassis_rows witnessChassisC8 =
      ChassisScript.chassis_rows
        { witnessChassisC8 with
            blades := [{ slot_id := some "2", moid := some "b2",
                         model := some "UCSB-B200-M5", serial := some "SN2" }] ++ [] } :=
  ⟨rfl, by decide,
    (claimC8_malformed_blade_inert witnessChassisC8
      [{ slot_id := some "2", moid := some "b2",
         model := some "UCSB-B200-M5", serial := some "SN2" }] [] malformedBlade
      rfl (by decide)).2.2.1⟩

/-! ### C9: iteration order decides a contested trailing slot -/

theorem expandStep_get_self (ts : Nat) (e : SlotDict) (p : Int × BladeDetails) :
    dictGet (ChassisScript.expandStep ts e p) p.fst = some p.snd := by
  unfold ChassisScript.expandStep
  by_cases h2 : p.snd.model ∈ TWO_SLOT_MODELS
  · by_cases h3 : p.fst + 1 ≤ (ts : Int)
    · have hne : ¬ p.fst + 1 = p.fst := by omega
      simp [h2, h3, dictGet_dictInsert, hne]
    · simp [h2, h3, dictGet_dictInsert]
  · simp [h2, dictGet_dictInsert]

theorem expandStep_get_next (ts : Nat) (e : SlotDict) (p : Int × BladeDetails)
    (h2 : p.snd.model ∈ TWO_SLOT_MODELS) (h3 : p.fst + 1 ≤ (ts : Int)) :
    dictGet (ChassisScript.expandStep ts e p) (p.fst + 1) = some p.snd := by
  unfold ChassisScript.expandStep
  simp [h2, h3, dictGet_dictInsert]

theorem expandFold_get_untouched (ts : Nat) (k : Int) :
    ∀ l : SlotDict, (∀ p ∈ l, p.fst ≠ k ∧ p.fst + 1 ≠ k) →
      ∀ e : SlotDict,
        dictGet (l.foldl (ChassisScript.expandStep ts) e) k = dictGet e k := by
  intro l
  induction l with
  | nil => intro _ e; rfl
  | cons p rest ih =>
    intro hl e
    rw [List.foldl_cons, ih (fun q hq => hl q (List.mem_cons_of_mem _ hq))]
    have h1 := (hl p (List.mem_cons_self _ _)).1
    have hplus := (hl p (List.mem_cons_self _ _)).2
    unfold ChassisScript.expandStep
    by_cases hm : p.snd.model ∈ TWO_SLOT_MODELS
    · by_cases h3 : p.fst + 1 ≤ (ts : Int) <;>
        simp [hm, h3, dictGet_dictInsert, h1, hplus]
    · simp [hm, dictGet_dictInsert, h1]

/-- C9: in the summary variant, when a two-slot blade holds slot `s`
and another entry directly holds slot `s + 1`, the emitted value at
slot `s + 1` comes from whichever entry the direct-assignment map
iterates later: the two-slot expansion overwrites the direct entry
when the slot-`s` entry was inserted after it, and is itself
overwritten in the opposite order. -/
theorem claimC9_iteration_order_decides (pre mid post : SlotDict) (s : Int)
    (A B : BladeDetails) (ts : Nat)
    (hA : A.model ∈ TWO_SLOT_MODELS)
    (hle : s + 1 ≤ (ts : Int))
    (hpost : ∀ p ∈ post, p.fst ≠ s ∧ p.fst ≠ s + 1) :
    dictGet (ChassisScript.expanded_slots_details
      (pre ++ (s + 1, B) :: mid ++ (s, A) :: post) ts) (s + 1) = some A ∧
    dictGet (ChassisScript.expanded_slots_details
      (pre ++ (s, A) :: mid ++ (s + 1, B) :: post) ts) (s + 1) = some B := by
  have hpost' : ∀ p ∈ post, p.fst ≠ s + 1 ∧ p.fst + 1 ≠ s + 1 := by
    intro p hp
    have h := hpost p hp
    exact ⟨h.2, by omega⟩
  constructor
  · unfold ChassisScript.expanded_slots_details
    rw [show pre ++ (s + 1, B) :: mid ++ (s, A) :: post =
        (pre ++ (s + 1, B) :: mid) ++ (s, A) :: post by simp]
    rw [List.foldl_append, List.foldl_cons]
    rw [expandFold_get_untouched ts (s + 1) post hpost']
    exact expandStep_get_next ts _ (s, A) hA hle
  · unfold ChassisScript.expanded_slots_details
    rw [show pre ++ (s, A) :: mid ++ (s + 1, B) :: post =
        (pre ++ (s, A) :: mid) ++ (s + 1, B) :: post by simp]
    rw [List.foldl_append, List.foldl_cons]
    rw [expandFold_get_untouched ts (s + 1) post hpost']
    exact expandStep_get_self ts _ (s + 1, B)

theorem claimC9_iteration_order_decides_witness :
    (("UCSX-410C-M7" : String) ∈ TWO_SLOT_MODELS ∧ (3 : Int) + 1 ≤ ((8 : Nat) : Int)) ∧
    dictGet (ChassisScript.expanded_slots_details
      [((4 : Int), ⟨"UCSB-B200-M5", "SB"⟩), ((3 : Int), ⟨"UCSX-410C-M7", "SA"⟩)] 8) 4 =
        some ⟨"UCSX-410C-M7", "SA"⟩ ∧
    dictGet (ChassisScript.expanded_slots_details
      [((3 : Int), ⟨"UCSX-410C-M7", "SA"⟩), ((4 : Int), ⟨"UCSB-B200-M5", "SB"⟩)] 8) 4 =
        some ⟨"UCSB-B200-M5", "SB"⟩ :=
  ⟨⟨by decide, by decide⟩,
    (claimC9_iteration_order_decides [] [] [] 3 ⟨"UCSX-410C-M7", "SA"⟩
      ⟨"UCSB-B200-M5", "SB"⟩ 8 (by decide) (by decide) (by simp)).1,
    (claimC9_iteration_order_decides [] [] [] 3 ⟨"UCSX-410C-M7", "SA"⟩
      ⟨"UCSB-B200-M5", "SB"⟩ 8 (by decide) (by decide) (by simp)).2⟩

/-! ### C1: the summary invariant -/

/-- C1 counterexample: the claimed invariant fails on a fleet with one
two-slot blade — the blade counts once towards its status but consumes
two slots from the Empty remainder, so the per-model sum is 7 while
the summed `total_slots` is 8. -/
theorem claimC1_counterexample :
    counterSum (msFind (ChassisScript.model_summary_counts [scenarioChassis])
      "UCSB-5108-AC2") = 7 ∧
    fleetTotalSlots [scenarioChassis] "UCSB-5108-AC2" = 8 ∧
    counterSum (msFind (ChassisScript.model_summary_counts [scenarioChassis])
      "UCSB-5108-AC2") ≠
      fleetTotalSlots [scenarioChassis] "UCSB-5108-AC2" :=
  ⟨by decide, by decide, by decide⟩

theorem foldl_add_nat {α : Type} (w : α → Nat) :
    ∀ (l : List α) (a : Nat), l.foldl (fun a p => a + w p) a = a + (l.map w).sum := by
  intro l
  induction l with
  | nil => intro a; simp
  | cons p rest ih =>
    intro a
    rw [List.foldl_cons, ih]
    simp
    omega

theorem counterSum_eq (c : Counter) : counterSum c = (c.map Prod.snd).sum := by
  unfold counterSum
  rw [foldl_add_nat Prod.snd c 0]
  omega

theorem counterSum_counterAdd (c : Counter) (k : String) (n : Nat) :
    counterSum (counterAdd c k n) = counterSum c + n := by
  induction c with
  | nil => simp [counterAdd, counterSum_eq]
  | cons p rest ih =>
    obtain ⟨k', v⟩ := p
    by_cases h : k' = k
    · simp [counterAdd, h, counterSum_eq]
      omega
    · simp [counterAdd, h, counterSum_eq] at ih ⊢
      omega

theorem msAdd_any (m : ModelSummary) (model status key : String) (n : Nat) :
    (msAdd m model status n).any (fun p => p.fst = key) =
      m.any (fun p => p.fst = key) := by
  induction m with
  | nil => rfl
  | cons p rest ih =>
    obtain ⟨k, c⟩ := p
    by_cases h : k = model <;> simp [msAdd, h, ih]

theorem msFind_msAdd_self (m : ModelSummary) (model status : String) (n : Nat)
    (h : m.any (fun p => p.fst = model) = true) :
    msFind (msAdd m model status n) model = counterAdd (msFind m model) status n := by
  induction m with
  | nil => simp at h
  | cons p rest ih =>
    obtain ⟨k, c⟩ := p
    by_cases hk : k = model
    · subst hk
      simp [msAdd, msFind]
    · have h' : rest.any (fun p => p.fst = model) = true := by
        simpa [hk] using h
      simp [msAdd, msFind, hk, ih h']

theorem msFind_msAdd_other (m : ModelSummary) (model' model status : String) (n : Nat)
    (hne : model' ≠ model) :
    msFind (msAdd m model' status n) model = msFind m model := by
  induction m with
  | nil => rfl
  | cons p rest ih =>
    obtain ⟨k, c⟩ := p
    by_cases hk : k = model'
    · subst hk
      have : ¬ k = model := fun h => hne h
      simp [msAdd, msFind, this]
    · by_cases hm : k = model
      · subst hm
        simp [msAdd, msFind, hk]
      · simp [msAdd, msFind, hk, hm, ih]

theorem msFind_not_any (m : ModelSummary) (model : String)
    (h : m.any (fun p => p.fst = model) = false) : msFind m model = [] := by
  induction m with
  | nil => rfl
  | cons p rest ih =>
    obtain ⟨k, c⟩ := p
    by_cases hk : k = model
    · simp [hk] at h
    · have h' : rest.any (fun p => p.fst = model) = false := by
        simpa [hk] using h
      simp [msFind, hk, ih h']

theorem msFind_append (m1 m2 : ModelSummary) (model : String) :
    msFind (m1 ++ m2) model =
      if m1.any (fun p => p.fst = model) = true then msFind m1 model
      else msFind m2 model := by
  induction m1 with
  | nil => simp [msFind]
  | cons p rest ih =>
    obtain ⟨k, c⟩ := p
    by_cases hk : k = model
    · simp [msFind, hk]
    · have hd : (decide (k = model)) = false := by simp [hk]
      cases hany : rest.any (fun p => decide (p.fst = model)) <;>
        simp [msFind, hk, ih, hd, hany]

theorem msFind_msEnsure (m : ModelSummary) (cm model : String) :
    msFind (msEnsure m cm) model = msFind m model := by
  unfold msEnsure
  by_cases hc : m.any (fun p => p.fst = cm) = true
  · rw [if_pos hc]
  · rw [if_neg hc, msFind_append]
    by_cases hm : m.any (fun p => p.fst = model) = true
    · rw [if_pos hm]
    · rw [if_neg hm]
      have hfalse : m.any (fun p => p.fst = model) = false := by
        cases hb : m.any (fun p => p.fst = model) with
        | false => rfl
        | true => exact absurd hb hm
      have h0 : msFind m model = [] := msFind_not_any m model hfalse
      rw [h0]
      by_cases hcm : cm = model <;> simp [msFind, hcm]

theorem msEnsure_any_self (m : ModelSummary) (cm : String) :
    (msEnsure m cm).any (fun p => p.fst = cm) = true := by
  unfold msEnsure
  by_cases hc : m.any (fun p => p.fst = cm) = true
  · simp [hc]
  · simp [hc, List.any_append]

theorem bladeFold_any (cm state key : String) :
    ∀ (pop : SlotDict) (m : ModelSummary),
      ((pop.foldl (fun acc _ => msAdd acc cm state 1) m).any (fun p => p.fst = key)) =
        m.any (fun p => p.fst = key) := by
  intro pop
  induction pop with
  | nil => intro m; rfl
  | cons p rest ih =>
    intro m
    rw [List.foldl_cons, ih, msAdd_any]

theorem bladeFold_counterSum (cm state model : String) :
    ∀ (pop : SlotDict) (m : ModelSummary),
      m.any (fun p => p.fst = cm) = true →
      counterSum (msFind (pop.foldl (fun acc _ => msAdd acc cm state 1) m) model) =
        counterSum (msFind m model) + (if cm = model then pop.length else 0) := by
  intro pop
  induction pop with
  | nil => intro m _; simp
  | cons p rest ih =>
    intro m hm
    rw [List.foldl_cons, ih (msAdd m cm state 1) (by rw [msAdd_any]; exact hm)]
    by_cases hcm : cm = model
    · subst hcm
      rw [msFind_msAdd_self _ _ _ _ hm, counterSum_counterAdd]
      simp
      omega
    · rw [msFind_msAdd_other _ _ _ _ _ hcm]
      simp [hcm]

theorem update_summary_eq (m : ModelSummary) (cm state : String) (pop : SlotDict)
    (ts : Nat) :
    ChassisScript.update_summary m cm state pop ts =
      (if ChassisScript.slots_occupied_by_blades pop < ts then
        msAdd (pop.foldl (fun acc _ => msAdd acc cm state 1) (msEnsure m cm)) cm
          "Empty" (ts - ChassisScript.slots_occupied_by_blades pop)
      else pop.foldl (fun acc _ => msAdd acc cm state 1) (msEnsure m cm)) := rfl

theorem twoSlot_sum (pop : SlotDict) :
    (pop.map fun p => if TWO_SLOT_MODELS.contains p.snd.model then 2 else 1).sum =
      pop.length + twoSlotEntries pop := by
  induction pop with
  | nil => simp [twoSlotEntries]
  | cons p rest ih =>
    by_cases h : p.snd.model ∈ TWO_SLOT_MODELS <;>
      simp [twoSlotEntries, List.filter_cons, h] at ih ⊢ <;>
      omega

theorem slots_occupied_eq (pop : SlotDict) :
    ChassisScript.slots_occupied_by_blades pop = pop.length + twoSlotEntries pop := by
  unfold ChassisScript.slots_occupied_by_blades
  rw [foldl_add_nat (fun p => if TWO_SLOT_MODELS.contains p.snd.model then 2 else 1) pop 0,
    twoSlot_sum]
  omega

theorem update_summary_counterSum (m : ModelSummary) (cm state model : String)
    (pop : SlotDict) (ts : Nat) :
    counterSum (msFind (ChassisScript.update_summary m cm state pop ts) model) =
      counterSum (msFind m model) +
        (if cm = model then
          pop.length + (ts - ChassisScript.slots_occupied_by_blades pop)
         else 0) := by
  rw [update_summary_eq]
  have hany : ((pop.foldl (fun acc _ => msAdd acc cm state 1) (msEnsure m cm)).any
      (fun p => p.fst = cm)) = true := by
    rw [bladeFold_any]
    exact msEnsure_any_self m cm
  have hfold := bladeFold_counterSum cm state model pop (msEnsure m cm)
    (msEnsure_any_self m cm)
  rw [msFind_msEnsure] at hfold
  by_cases hlt : ChassisScript.slots_occupied_by_blades pop < ts
  · rw [if_pos hlt]
    by_cases hcm : cm = model
    · subst hcm
      rw [msFind_msAdd_self _ _ _ _ hany, counterSum_counterAdd, hfold]
      simp
      omega
    · rw [msFind_msAdd_other _ _ _ _ _ hcm, hfold]
      simp [hcm]
  · rw [if_neg hlt]
    rw [hfold]
    have hz : ts - ChassisScript.slots_occupied_by_blades pop = 0 := by omega
    by_cases hcm : cm = model <;> simp [hcm, hz]

theorem fleetFold_counterSum (model : String) :
    ∀ cs : List Chassis,
      (∀ c ∈ cs, ChassisScript.slots_occupied_by_blades
        (ChassisScript.populated_slots_details c.blades) ≤
          total_slots (chassis_model_str c)) →
      ∀ m : ModelSummary,
        counterSum (msFind (cs.foldl (fun m c =>
          ChassisScript.update_summary m (chassis_model_str c)
            (reported_chassis_oper_state c.oper_state)
            (ChassisScript.populated_slots_details c.blades)
            (total_slots (chassis_model_str c))) m) model) +
          fleetTwoSlotEntries cs model =
        counterSum (msFind m model) + fleetTotalSlots cs model := by
  intro cs
  induction cs with
  | nil => intro _ m; simp [fleetTwoSlotEntries, fleetTotalSlots]
  | cons c rest ih =>
    intro h m
    rw [List.foldl_cons]
    have hc := h c (List.mem_cons_self _ _)
    have hr := ih (fun c' hc' => h c' (List.mem_cons_of_mem _ hc'))
      (ChassisScript.update_summary m (chassis_model_str c)
        (reported_chassis_oper_state c.oper_state)
        (ChassisScript.populated_slots_details c.blades)
        (total_slots (chassis_model_str c)))
    have hupd := update_summary_counterSum m (chassis_model_str c)
      (reported_chassis_oper_state c.oper_state) model
      (ChassisScript.populated_slots_details c.blades)
      (total_slots (chassis_model_str c))
    have hocc := slots_occupied_eq (ChassisScript.populated_slots_details c.blades)
    rw [show fleetTwoSlotEntries (c :: rest) model =
        (if chassis_model_str c = model then
          twoSlotEntries (ChassisScript.populated_slots_details c.blades) else 0) +
          fleetTwoSlotEntries rest model from rfl,
      show fleetTotalSlots (c :: rest) model =
        (if chassis_model_str c = model then total_slots (chassis_model_str c) else 0) +
          fleetTotalSlots rest model from rfl]
    by_cases hcm : chassis_model_str c = model
    · simp only [if_pos hcm] at hupd ⊢
      omega
    · simp only [if_neg hcm] at hupd ⊢
      omega

/-- C1 amended: for each chassis model, the sum of all status counts
(including "Empty") plus the number of two-slot direct-assignment
entries across the model's chassis equals the sum of `total_slots`
over those chassis, provided no chassis's occupied-slot total exceeds
its `total_slots`; each two-slot blade makes the plain sum fall one
short of `total_slots`. -/
theorem claimC1_amended_summary_invariant (cs : List Chassis) (model : String)
    (h : ∀ c ∈ cs, ChassisScript.slots_occupied_by_blades
      (ChassisScript.populated_slots_details c.blades) ≤
        total_slots (chassis_model_str c)) :
    counterSum (msFind (ChassisScript.model_summary_counts cs) model) +
        fleetTwoSlotEntries cs model =
      fleetTotalSlots cs model := by
  have hf := fleetFold_counterSum model cs h []
  have h0 : counterSum (msFind ([] : ModelSummary) model) = 0 := rfl
  rw [h0] at hf
  unfold ChassisScript.model_summary_counts
  omega

theorem claimC1_amended_summary_invariant_witness :
    (∀ c ∈ [scenarioChassis], ChassisScript.slots_occupied_by_blades
      (ChassisScript.populated_slots_details c.blades) ≤
        total_slots (chassis_model_str c)) ∧
    counterSum (msFind (ChassisScript.model_summary_counts [scenarioChassis])
        "UCSB-5108-AC2") +
      fleetTwoSlotEntries [scenarioChassis] "UCSB-5108-AC2" =
      fleetTotalSlots [scenarioChassis] "UCSB-5108-AC2" :=
  ⟨by decide,
    claimC1_amended_summary_invariant [scenarioChassis] "UCSB-5108-AC2" (by decide)⟩
